import Mathlib

/-!
Verification development for the Ruty launcher core: the query resolver
(`commands.js`), the selection state machine (`results.js`), and the session
transport / input pipeline (the main frontend module).  JavaScript state is
modelled by explicit state records, effects (network / IPC calls) by explicit
effect lists, and numbers by `Int`/`Nat`/`Rat` as appropriate.
-/

namespace Ruty

/-- `ActionIntent` — the tagged variant produced by invoking a result's action
(`{ type: 'ai', query }`, `{ type: 'insert', value }`, ... in the source). -/
inductive ActionIntent where
  | ai (query : String)
  | insert (value : String)
  | navigate (url : String)
  | urlIntent (url : String)
  | copy (value : String)
  | context (path : String)
  | clear
  | clearContext
  | provider (id : String)
  | launchApp (appId : String) (appName : String)
  | quit
  | openFile (path : String) (name : String)
  | copyToClipboard (content : String)
  | openUrl (url : String)
  deriving Repr, DecidableEq

/-- `CommandResult` from `commands.js` — one candidate action.  The nullary
async `action` producer is modelled by the intent it returns (`none` for a
label-only/hint entry); the icon field is presentation-only and omitted. -/
structure CommandResult where
  id : String
  title : String
  subtitle : String := ""
  rtype : String := "action"
  shortcut : Option String := none
  action : Option ActionIntent := none
  deriving Repr, DecidableEq

/-! ## Selection state machine (`results.js` `ResultList`) -/

/-- The mutable fields of `ResultList` relevant to selection: `results`,
`selectedIndex` (a JS number, so modelled as `Int` — the code can store
negative or out-of-range values), and `visible`. -/
structure RLState where
  results : List CommandResult
  selectedIndex : Int
  visible : Bool
  deriving Repr, DecidableEq

/-- `hide()`: visible := false, results := []; (`selectedIndex` is untouched;
the DOM container manipulation is presentation-only). -/
def rlHide (st : RLState) : RLState :=
  { st with visible := false, results := [] }

/-- `show(results)`: store the list, reset `selectedIndex` to 0; if the list
is empty, `hide()`; otherwise become visible. -/
def rlShow (st : RLState) (results : List CommandResult) : RLState :=
  let st := { st with results := results, selectedIndex := 0 }
  if st.results.isEmpty then rlHide st else { st with visible := true }

/-- `setSelected(index)`: sets `this.selectedIndex = index` unconditionally
(the remainder of the method only updates CSS classes and scrolling). -/
def setSelected (st : RLState) (index : Int) : RLState :=
  { st with selectedIndex := index }

/-- `moveSelection(delta)`: computes `newIndex = selectedIndex + delta` and
calls `setSelected` only if `0 <= newIndex < results.length`. -/
def moveSelection (st : RLState) (delta : Int) : RLState :=
  let newIndex := st.selectedIndex + delta
  if 0 ≤ newIndex ∧ newIndex < (st.results.length : Int) then
    setSelected st newIndex
  else st

/-- `getSelected()`: `this.results[this.selectedIndex] || null`; a negative or
out-of-range JS index reads `undefined`, hence `none`. -/
def getSelected (st : RLState) : Option CommandResult :=
  if 0 ≤ st.selectedIndex then st.results.get? st.selectedIndex.toNat else none

/-- `isVisible()`: `this.visible && this.results.length > 0`. -/
def rlIsVisible (st : RLState) : Bool :=
  st.visible && !st.results.isEmpty

/-! ## String helpers (JS `startsWith`, substring match, `trim`) -/

/-- `startsWithL pat s`: `pat` is a prefix of `s` (char-list level). -/
def startsWithL : List Char → List Char → Bool
  | [], _ => true
  | _ :: _, [] => false
  | p :: ps, c :: cs => p == c && startsWithL ps cs

/-- `hasSubL pat s`: `pat` occurs as a contiguous substring of `s`. -/
def hasSubL (pat : List Char) : List Char → Bool
  | [] => startsWithL pat []
  | c :: cs => startsWithL pat (c :: cs) || hasSubL pat cs

/-- JS `q.startsWith(pat)`. -/
def startsWithS (s pat : String) : Bool := startsWithL pat.data s.data

/-- An unanchored JS regex match of the literal `pat` inside `s`. -/
def containsSubS (s pat : String) : Bool := hasSubL pat.data s.data

/-- ASCII whitespace, modelling both regex `\s` membership and the characters
`String.prototype.trim` strips (the sources only ever see ASCII input). -/
def isJsSpace (c : Char) : Bool := c = ' ' || c = '\t' || c = '\n' || c = '\r'

/-- JS `query.trim()`. -/
def jsTrim (s : String) : String :=
  ⟨((s.data.dropWhile isJsSpace).reverse.dropWhile isJsSpace).reverse⟩

/-- JS `s.split(' ')` at the character level: adjacent separators produce
empty segments and the empty string splits to `[""]`. -/
def splitOnSpace : List Char → List (List Char)
  | [] => [[]]
  | c :: rest =>
    if c = ' ' then [] :: splitOnSpace rest
    else
      match splitOnSpace rest with
      | g :: gs => (c :: g) :: gs
      | [] => [[c]]

/-- JS `s.split(' ')`. -/
def jsSplitOnSpace (s : String) : List String :=
  (splitOnSpace s.data).map (fun l => ⟨l⟩)

/-- JS `parts.join(' ')`. -/
def joinSpace : List String → String
  | [] => ""
  | [s] => s
  | s :: rest => s ++ " " ++ joinSpace rest

/-- JS `s.toLowerCase()` (ASCII). -/
def toLowerS (s : String) : String := ⟨s.data.map Char.toLower⟩

/-- JS `s.slice(n)` for a non-negative character offset. -/
def dropS (s : String) (n : Nat) : String := ⟨s.data.drop n⟩

/-! ## Universal-search detectors (`commands.js` `universalSearch`) -/

/-- The URL detector:
`query.match(/^(https?:\/\/|www\.)/) || query.match(/\.(com|org|net|io|dev|app)/)` —
an anchored scheme/`www.` prefix, or one of six TLD-like substrings anywhere. -/
def urlMatch (q : String) : Bool :=
  startsWithS q "http://" || startsWithS q "https://" || startsWithS q "www." ||
  containsSubS q ".com" || containsSubS q ".org" || containsSubS q ".net" ||
  containsSubS q ".io" || containsSubS q ".dev" || containsSubS q ".app"

/-- Membership in the calculator character class `[\d\s\+\-\*\/\(\)\.%]`. -/
def isCalcChar (c : Char) : Bool :=
  c.isDigit || isJsSpace c || c = '+' || c = '-' || c = '*' || c = '/' ||
  c = '(' || c = ')' || c = '.' || c = '%'

/-- The calculator detector: `query.match(/^[\d\s\+\-\*\/\(\)\.%]+$/)` —
non-empty and every character in the class. -/
def calcMatch (q : String) : Bool := !q.data.isEmpty && q.data.all isCalcChar

/-- Membership in the keep-class of `query.replace(/[^-()\d/*+.%]/g, '')`. -/
def isKeptChar (c : Char) : Bool :=
  c = '-' || c = '(' || c = ')' || c.isDigit || c = '/' || c = '*' ||
  c = '+' || c = '.' || c = '%'

/-- The sanitization step: drop every character outside `[-()\d/*+.%]`
(on a query passing `calcMatch` this removes exactly the whitespace). -/
def sanitize (q : String) : String := ⟨q.data.filter isKeptChar⟩

/-! ## Arithmetic evaluator

The source evaluates the sanitized string with `new Function('return ' + s)()`
and keeps the result only when it is a finite number.  Per the spec (§4.1 and
design note §9) this dynamic evaluation is modelled by a recursive-descent
evaluator over the restricted grammar — numeric literals and `+ - * / % ( )`
with JS precedence and left associativity — over exact rationals.  Failure
(`none`) covers both syntax errors (which the source catches and ignores) and
non-finite results such as division by zero (which fail the source's
`isFinite` check); either way no result entry is produced.  Known model
boundaries versus raw JS evaluation: IEEE-754 rounding, legacy octal
literals, and `//` comment syntax are not reproduced. -/

/-- An exact rational value as an unnormalized fraction with positive
denominator.  (Mathlib's `ℚ` normalizes through `Rat.add` and friends, whose
definitions do not reduce inside the kernel; this explicit representation
keeps the evaluator fully computable by `decide`.) -/
structure Frac where
  num : Int
  den : Int
  deriving Repr, DecidableEq

/-- Embed an integer. -/
def fracOfInt (n : Int) : Frac := { num := n, den := 1 }

def fracAdd (a b : Frac) : Frac :=
  { num := a.num * b.den + b.num * a.den, den := a.den * b.den }

def fracSub (a b : Frac) : Frac :=
  { num := a.num * b.den - b.num * a.den, den := a.den * b.den }

def fracMul (a b : Frac) : Frac :=
  { num := a.num * b.num, den := a.den * b.den }

def fracNeg (a : Frac) : Frac := { num := -a.num, den := a.den }

/-- Division, keeping the denominator positive (the caller guards against a
zero divisor). -/
def fracDiv (a b : Frac) : Frac :=
  if b.num < 0 then { num := -(a.num * b.den), den := a.den * (-b.num) }
  else { num := a.num * b.den, den := a.den * b.num }

/-- Truncation toward zero, as JS `%` uses. -/
def fracTrunc (a : Frac) : Int := Int.tdiv a.num a.den

/-- JS remainder: `a - b * trunc(a / b)` (the sign follows the dividend). -/
def fracMod (a b : Frac) : Frac :=
  fracSub a (fracMul b (fracOfInt (fracTrunc (fracDiv a b))))

inductive Tok where
  | num (v : Frac)
  | plus
  | minus
  | star
  | slash
  | percent
  | lparen
  | rparen
  deriving Repr, DecidableEq

/-- Value of a digit string. -/
def digitsVal (ds : List Char) : ℕ :=
  ds.foldl (fun a c => 10 * a + (c.toNat - '0'.toNat)) 0

/-- Lex one numeric literal: `digits`, `digits.digits?`, or `.digits`
(a lone `.` is a syntax error). -/
def lexNum (cs : List Char) : Option (Frac × List Char) :=
  let intDigits := cs.takeWhile Char.isDigit
  let rest := cs.dropWhile Char.isDigit
  match rest with
  | '.' :: rest2 =>
    let fracDigits := rest2.takeWhile Char.isDigit
    let rest3 := rest2.dropWhile Char.isDigit
    if intDigits.isEmpty && fracDigits.isEmpty then none
    else
      some ({ num := (digitsVal intDigits : Int) * 10 ^ fracDigits.length +
          (digitsVal fracDigits : Int), den := 10 ^ fracDigits.length }, rest3)
  | _ =>
    if intDigits.isEmpty then none
    else some (fracOfInt (digitsVal intDigits : Int), rest)

/-- Tokenizer (fuel-indexed; one token consumes at least one character).
Adjacent `++`/`--` lex as JS increment/decrement operators, which are syntax
errors on these operand forms, hence overall failure. -/
def tokenize : ℕ → List Char → Option (List Tok)
  | _, [] => some []
  | 0, _ :: _ => none
  | n + 1, c :: rest =>
    if c = '+' then
      match rest with
      | '+' :: _ => none
      | _ => (tokenize n rest).map (Tok.plus :: ·)
    else if c = '-' then
      match rest with
      | '-' :: _ => none
      | _ => (tokenize n rest).map (Tok.minus :: ·)
    else if c = '*' then (tokenize n rest).map (Tok.star :: ·)
    else if c = '/' then (tokenize n rest).map (Tok.slash :: ·)
    else if c = '%' then (tokenize n rest).map (Tok.percent :: ·)
    else if c = '(' then (tokenize n rest).map (Tok.lparen :: ·)
    else if c = ')' then (tokenize n rest).map (Tok.rparen :: ·)
    else
      match lexNum (c :: rest) with
      | some (v, rest2) => (tokenize n rest2).map (Tok.num v :: ·)
      | none => none

mutual

/-- Additive level: `term (('+'|'-') term)*`. -/
def pExpr : ℕ → List Tok → Option (Frac × List Tok)
  | 0, _ => none
  | n + 1, ts =>
    match pTerm n ts with
    | some (v, rest) => pExprLoop n v rest
    | none => none

def pExprLoop : ℕ → Frac → List Tok → Option (Frac × List Tok)
  | 0, _, _ => none
  | n + 1, acc, Tok.plus :: rest =>
    match pTerm n rest with
    | some (v, rest2) => pExprLoop n (fracAdd acc v) rest2
    | none => none
  | n + 1, acc, Tok.minus :: rest =>
    match pTerm n rest with
    | some (v, rest2) => pExprLoop n (fracSub acc v) rest2
    | none => none
  | _ + 1, acc, ts => some (acc, ts)

/-- Multiplicative level: `unary (('*'|'/'|'%') unary)*`; a zero divisor
yields a non-finite JS value, modelled as failure. -/
def pTerm : ℕ → List Tok → Option (Frac × List Tok)
  | 0, _ => none
  | n + 1, ts =>
    match pUnary n ts with
    | some (v, rest) => pTermLoop n v rest
    | none => none

def pTermLoop : ℕ → Frac → List Tok → Option (Frac × List Tok)
  | 0, _, _ => none
  | n + 1, acc, Tok.star :: rest =>
    match pUnary n rest with
    | some (v, rest2) => pTermLoop n (fracMul acc v) rest2
    | none => none
  | n + 1, acc, Tok.slash :: rest =>
    match pUnary n rest with
    | some (v, rest2) =>
      if v.num = 0 then none else pTermLoop n (fracDiv acc v) rest2
    | none => none
  | n + 1, acc, Tok.percent :: rest =>
    match pUnary n rest with
    | some (v, rest2) =>
      if v.num = 0 then none else pTermLoop n (fracMod acc v) rest2
    | none => none
  | _ + 1, acc, ts => some (acc, ts)

/-- Unary level: prefix `+`/`-` chains over a primary. -/
def pUnary : ℕ → List Tok → Option (Frac × List Tok)
  | 0, _ => none
  | n + 1, Tok.minus :: rest => (pUnary n rest).map (fun p => (fracNeg p.1, p.2))
  | n + 1, Tok.plus :: rest => pUnary n rest
  | n + 1, ts => pPrimary n ts

/-- Primary level: numeric literal or parenthesized expression. -/
def pPrimary : ℕ → List Tok → Option (Frac × List Tok)
  | 0, _ => none
  | _ + 1, Tok.num v :: rest => some (v, rest)
  | n + 1, Tok.lparen :: rest =>
    match pExpr n rest with
    | some (v, Tok.rparen :: rest2) => some (v, rest2)
    | _ => none
  | _ + 1, _ => none

end

/-- Full evaluation of the sanitized query: lex, parse, and require the
whole token stream to be consumed. -/
def evalArith (q : String) : Option Frac :=
  match tokenize (sanitize q).data.length (sanitize q).data with
  | none => none
  | some ts =>
    match pExpr (4 * (ts.length + 1)) ts with
    | some (v, []) => some v
    | _ => none

/-- Left-pad a digit string with zeros to width `k`. -/
def natPad (k : ℕ) (s : String) : String :=
  ⟨List.replicate (k - s.length) '0'⟩ ++ s

/-- JS `String(result)` on the evaluator's value, after reducing the
fraction: integers print as plain digit strings, terminating decimals in
positional notation (`0.125`, `0.01`, ...).  Values whose decimal expansion
does not terminate within 64 digits fall back to `num/den` notation — there
exact rationals and IEEE-754 floats part ways, a documented model boundary
never reached by the spec's examples. -/
def fmtVal (v : Frac) : String :=
  let g : Int := (Nat.gcd v.num.natAbs v.den.natAbs : Int)
  let n : Int := Int.tdiv v.num g
  let den : ℕ := v.den.natAbs / Nat.gcd v.num.natAbs v.den.natAbs
  if den = 1 then toString n
  else
    match (List.range 64).find? (fun k => (n.natAbs * 10 ^ k) % den = 0) with
    | some k =>
      let scaled := n.natAbs * 10 ^ k / den
      let intPart := scaled / 10 ^ k
      let frac := scaled % 10 ^ k
      (if n < 0 then "-" else "") ++ toString intPart ++ "." ++
        natPad k (toString frac)
    | none => toString n ++ "/" ++ toString den

/-! ## Universal search and quick actions (`commands.js`) -/

/-- The always-present AI fallback entry (`id: 'ai_fallback'`). -/
def aiFallback (q : String) : CommandResult :=
  { id := "ai_fallback", title := q, subtitle := "Ask Ruty AI", rtype := "ai",
    action := some (ActionIntent.ai q) }

/-- The URL-detector entry (`id: 'open_url'`). -/
def openUrlResult (q : String) : CommandResult :=
  { id := "open_url", title := "Open " ++ q, subtitle := "Open in browser",
    rtype := "action", action := some (ActionIntent.urlIntent q) }

/-- The calculator entry (`id: 'calc_result'`) for an already formatted
result string. -/
def calcResult (s : String) : CommandResult :=
  { id := "calc_result", title := "= " ++ s, subtitle := "Copy result",
    rtype := "action", action := some (ActionIntent.copy s) }

/-- `universalSearch(query)`: push the AI fallback, then `unshift` the URL
entry if the URL detector matches, then `unshift` the calculator entry if the
calculator detector matches and evaluation produces a finite value. -/
def universalSearch (q : String) : List CommandResult :=
  let results := [aiFallback q]
  let results := if urlMatch q then openUrlResult q :: results else results
  let results :=
    if calcMatch q then
      match evalArith q with
      | some r => calcResult (fmtVal r) :: results
      | none => results
    else results
  results

/-- The calculator contribution to `universalSearch` as a sublist. -/
def calcPart (q : String) : List CommandResult :=
  if calcMatch q then
    match evalArith q with
    | some r => [calcResult (fmtVal r)]
    | none => []
  else []

/-- The URL-detector contribution to `universalSearch` as a sublist. -/
def urlPart (q : String) : List CommandResult :=
  if urlMatch q then [openUrlResult q] else []

/-- `getQuickActions()`: the fixed five-entry list for an empty query. -/
def getQuickActions : List CommandResult :=
  [ { id := "qa_ai", title := "Ask AI", subtitle := "Chat with Ruty assistant",
      rtype := "ai", shortcut := some "↵" },
    { id := "qa_apps", title := "Search Apps", subtitle := "Launch applications",
      rtype := "app", action := some (ActionIntent.insert "/app ") },
    { id := "qa_files", title := "Search Files",
      subtitle := "Find files on your system", rtype := "file",
      action := some (ActionIntent.insert "/file ") },
    { id := "qa_clipboard", title := "Clipboard History",
      subtitle := "View clipboard history", rtype := "clipboard",
      action := some (ActionIntent.insert "/clip") },
    { id := "qa_settings", title := "Settings", subtitle := "Configure Ruty",
      rtype := "system", action := some (ActionIntent.navigate "settings.html") } ]

/-! ## Capability collaborators and effects

Command handlers and the session transport reach the outside world through
Tauri `invoke` calls, `fetch` calls, the WebSocket, and browser APIs.  Each
outward call is recorded as an `Effect`; collaborator responses are supplied
by an `Env` record (`Except.error` models a thrown/rejected call). -/

structure AppInfo where
  id : String
  name : String
  subtitle : String
  deriving Repr, DecidableEq

structure FileEntry where
  name : String
  path : String
  isDir : Bool
  deriving Repr, DecidableEq

structure ClipItem where
  content : String
  timestamp : Nat
  deriving Repr, DecidableEq

inductive Effect where
  | invokeSearchApps (query : String)
  | invokeSearchFiles (query : String) (maxResults : Nat) (foldersOnly : Bool)
  | invokeClipboardHistory
  | invokeLaunchApp (appId : String)
  | invokeOpenFile (path : String)
  | invokeCopyToClipboard (content : String)
  | fetchProviders
  | fetchProvidersUpdate (provider : String)
  | fetchContextLoad (path : String)
  | fetchContextClear
  | wsSend (payload : String)
  | httpChat (message : String)
  | clipboardWrite (value : String)
  | navigateTo (url : String)
  | scheduleInputResolve
  | exitApp
  deriving Repr, DecidableEq

structure Env where
  tauriAvailable : Bool
  searchApps : String → Except String (List AppInfo)
  searchFiles : String → Nat → Bool → Except String (List FileEntry)
  clipboardHistory : Unit → Except String (List ClipItem)
  providersResp : Option (List (String × String) × String)

/-! ## Built-in command handlers (`commands.js` `registerBuiltInCommands`) -/

/-- The `/context` handler. -/
def contextRun (_ : Env) (args : String) : List CommandResult × List Effect :=
  if args = "" then
    ([{ id := "context_hint", title := "/context <path>",
        subtitle := "Enter a file or folder path to load as context",
        rtype := "file" }], [])
  else
    ([{ id := "context_load", title := "Load: " ++ args,
        subtitle := "Load as context for AI", rtype := "file",
        action := some (ActionIntent.context args) }], [])

/-- The `/clear` handler. -/
def clearRun (_ : Env) (_ : String) : List CommandResult × List Effect :=
  ([{ id := "clear_response", title := "Clear Response",
      subtitle := "Clear the current response", rtype := "action",
      action := some ActionIntent.clear },
    { id := "clear_context", title := "Clear Context",
      subtitle := "Remove loaded file context", rtype := "action",
      action := some ActionIntent.clearContext }], [])

/-- The `/app` handler: guard on Tauri availability, then `search_apps`. -/
def appRun (env : Env) (args : String) : List CommandResult × List Effect :=
  if !env.tauriAvailable then
    ([{ id := "app_no_tauri", title := "App search unavailable",
        subtitle := "Tauri API not found", rtype := "app" }], [])
  else
    match env.searchApps args with
    | Except.error e =>
      ([{ id := "app_error", title := "Error searching apps", subtitle := e,
          rtype := "app" }], [Effect.invokeSearchApps args])
    | Except.ok apps =>
      if apps.isEmpty then
        ([{ id := "app_none",
            title := if args = "" then "No applications found"
              else "No apps matching \"" ++ args ++ "\"",
            subtitle := "Try a different search term", rtype := "app" }],
          [Effect.invokeSearchApps args])
      else
        (apps.map (fun app =>
          { id := "app_" ++ app.id, title := app.name, subtitle := app.subtitle,
            rtype := "app",
            action := some (ActionIntent.launchApp app.id app.name) }),
          [Effect.invokeSearchApps args])

/-- The single hint entry of the `/file` handler. -/
def fileHint : CommandResult :=
  { id := "file_hint", title := "/file <search term>",
    subtitle := "Enter at least 2 characters to search", rtype := "file" }

/-- The Tauri-unavailable entry of the `/file` handler. -/
def fileNoTauri : CommandResult :=
  { id := "file_no_tauri", title := "File search unavailable",
    subtitle := "Tauri API not found", rtype := "file" }

/-- The `/file` handler: argument validation (at least 2 characters), guard on
Tauri availability, then `search_files(args, 15)`. -/
def fileRun (env : Env) (args : String) : List CommandResult × List Effect :=
  if args = "" || args.length < 2 then ([fileHint], [])
  else if !env.tauriAvailable then ([fileNoTauri], [])
  else
    match env.searchFiles args 15 false with
    | Except.error e =>
      ([{ id := "file_error", title := "Error searching files", subtitle := e,
          rtype := "file" }], [Effect.invokeSearchFiles args 15 false])
    | Except.ok files =>
      if files.isEmpty then
        ([{ id := "file_none", title := "No files matching \"" ++ args ++ "\"",
            subtitle := "Try a different search term", rtype := "file" }],
          [Effect.invokeSearchFiles args 15 false])
      else
        (files.map (fun file =>
          { id := "file_" ++ file.path, title := file.name,
            subtitle := file.path, rtype := "file",
            action := some (ActionIntent.openFile file.path file.name) }),
          [Effect.invokeSearchFiles args 15 false])

/-- The `/folder` handler: same shape as `/file` with `foldersOnly: true`. -/
def folderRun (env : Env) (args : String) : List CommandResult × List Effect :=
  if args = "" || args.length < 2 then
    ([{ id := "folder_hint", title := "/folder <search term>",
        subtitle := "Enter at least 2 characters to search folders",
        rtype := "file" }], [])
  else if !env.tauriAvailable then
    ([{ id := "folder_no_tauri", title := "Folder search unavailable",
        subtitle := "Tauri API not found", rtype := "file" }], [])
  else
    match env.searchFiles args 15 true with
    | Except.error e =>
      ([{ id := "folder_error", title := "Error searching folders",
          subtitle := e, rtype := "file" }],
        [Effect.invokeSearchFiles args 15 true])
    | Except.ok files =>
      if files.isEmpty then
        ([{ id := "folder_none",
            title := "No folders matching \"" ++ args ++ "\"",
            subtitle := "Try a different search term", rtype := "file" }],
          [Effect.invokeSearchFiles args 15 true])
      else
        (files.map (fun file =>
          { id := "folder_" ++ file.path, title := file.name,
            subtitle := file.path, rtype := "file",
            action := some (ActionIntent.openFile file.path file.name) }),
          [Effect.invokeSearchFiles args 15 true])

/-- Displayed title of one clipboard item: truncate to 50 characters and
replace newlines with spaces. -/
def clipTitle (content : String) : String :=
  let nl : Char → Char := fun c => if c = '\n' then ' ' else c
  if 50 < content.length then ⟨(content.data.take 50).map nl⟩ ++ "..."
  else ⟨content.data.map nl⟩

/-- The `/clip` handler: clipboard history with optional substring filter. -/
def clipRun (env : Env) (args : String) : List CommandResult × List Effect :=
  if !env.tauriAvailable then
    ([{ id := "clip_no_tauri", title := "Clipboard history unavailable",
        subtitle := "Tauri API not found", rtype := "clipboard" }], [])
  else
    match env.clipboardHistory () with
    | Except.error e =>
      ([{ id := "clip_error", title := "Error loading history", subtitle := e,
          rtype := "clipboard" }], [Effect.invokeClipboardHistory])
    | Except.ok history =>
      if history.isEmpty then
        ([{ id := "clip_empty", title := "Clipboard history empty",
            subtitle := "Copy some text to see it here",
            rtype := "clipboard" }], [Effect.invokeClipboardHistory])
      else
        let filtered := if args = "" then history
          else history.filter
            (fun item => containsSubS (toLowerS item.content) (toLowerS args))
        if filtered.isEmpty then
          ([{ id := "clip_none", title := "No items matching \"" ++ args ++ "\"",
              subtitle := "Try a different search term", rtype := "clipboard" }],
            [Effect.invokeClipboardHistory])
        else
          (filtered.map (fun item =>
            { id := "clip_" ++ toString item.timestamp,
              title := clipTitle item.content, subtitle := "Press Enter to copy",
              rtype := "clipboard",
              action := some (ActionIntent.copyToClipboard item.content) }),
            [Effect.invokeClipboardHistory])

/-- The `/provider` handler: `GET /providers`, entries in insertion order,
the current provider marked. -/
def providerRun (env : Env) (_ : String) : List CommandResult × List Effect :=
  match env.providersResp with
  | none =>
    ([{ id := "provider_error", title := "Error loading providers",
        subtitle := "Backend not available", rtype := "system" }],
      [Effect.fetchProviders])
  | some (provs, current) =>
    (provs.map (fun p =>
      { id := "provider_" ++ p.1, title := p.2,
        subtitle := if p.1 = current then "✓ Current" else "Switch to " ++ p.2,
        rtype := "system", action := some (ActionIntent.provider p.1) }),
      [Effect.fetchProviders])

/-- The `/quit` handler. -/
def quitRun (_ : Env) (_ : String) : List CommandResult × List Effect :=
  ([{ id := "quit_app", title := "Quit Ruty", subtitle := "Exit the application",
      rtype := "system", action := some ActionIntent.quit }], [])

/-! ## Command registry and dispatch -/

structure CommandHandler where
  description : String
  ctype : String
  run : Env → String → List CommandResult × List Effect

/-- The registry in registration order (`registerBuiltInCommands`). -/
def registry : List (String × CommandHandler) :=
  [ ("context",
      { description := "Load local files as context", ctype := "file",
        run := contextRun }),
    ("clear",
      { description := "Clear response and context", ctype := "action",
        run := clearRun }),
    ("app",
      { description := "Search and launch applications", ctype := "app",
        run := appRun }),
    ("file",
      { description := "Search files", ctype := "file", run := fileRun }),
    ("folder",
      { description := "Search folders", ctype := "file", run := folderRun }),
    ("clip",
      { description := "Clipboard history", ctype := "clipboard",
        run := clipRun }),
    ("provider",
      { description := "Change AI provider", ctype := "system",
        run := providerRun }),
    ("quit",
      { description := "Quit Ruty", ctype := "system", run := quitRun }) ]

def getCommandNames : List String := registry.map (fun p => p.1)

/-- An "insert the full command" hint entry for a registered name. -/
def cmdHint (name : String) (h : CommandHandler) : CommandResult :=
  { id := "cmd_" ++ name, title := "/" ++ name, subtitle := h.description,
    rtype := h.ctype, action := some (ActionIntent.insert ("/" ++ name ++ " ")) }

def getAvailableCommands : List CommandResult :=
  registry.map (fun p => cmdHint p.1 p.2)

/-- `handleCommandQuery(query)`: strip the `/`, split on spaces, lower-case
the name; empty name shows all commands, an exact match delegates to the
handler, otherwise prefix matches become hints (none at all → empty list). -/
def handleCommandQuery (env : Env) (query : String) :
    List CommandResult × List Effect :=
  let parts := jsSplitOnSpace (dropS query 1)
  let cmdName := toLowerS (parts.headD "")
  let args := joinSpace parts.tail
  if cmdName = "" then (getAvailableCommands, [])
  else
    match registry.find? (fun p => p.1 == cmdName) with
    | some p => p.2.run env args
    | none =>
      ((registry.filter (fun p => startsWithS p.1 cmdName)).map
        (fun p => cmdHint p.1 p.2), [])

/-- `getResults(query)`: the top-level resolver dispatch — quick actions for
an empty trimmed query, `/` command dispatch, `>` explicit AI, otherwise
universal search. -/
def getResults (env : Env) (query : String) :
    List CommandResult × List Effect :=
  let trimmed := jsTrim query
  if trimmed = "" then (getQuickActions, [])
  else if startsWithS trimmed "/" then handleCommandQuery env trimmed
  else if startsWithS trimmed ">" then
    ([{ id := "ai_query", title := "Ask AI: " ++ jsTrim (dropS trimmed 1),
        subtitle := "Send to Ruty AI assistant", rtype := "ai",
        action := some (ActionIntent.ai (jsTrim (dropS trimmed 1))) }], [])
  else (universalSearch trimmed, [])

/-! ## Session state and transport (main frontend module) -/

/-- The module-level mutable state of the frontend: the single-flight flag
`isProcessing`, the input value, the result-list state, whether the WebSocket
exists and is `OPEN`, and the response/tools display state. -/
structure AppState where
  isProcessing : Bool
  inputValue : String
  list : RLState
  wsOpen : Bool
  responseText : Option String
  toolsVisible : Bool
  deriving Repr, DecidableEq

/-- `sendMessageWS(message)`: write the payload as a frame when the channel
is open, otherwise a single one-shot `POST /chat` fallback call. -/
def sendMessageWS (st : AppState) (message : String) : List Effect :=
  if st.wsOpen then [Effect.wsSend message] else [Effect.httpChat message]

/-- `showResponse(text)`: hides the result list and displays the text. -/
def showResponseS (st : AppState) (text : String) : AppState :=
  { st with list := rlHide st.list, responseText := some text }

/-! ## Frames (`handleWSMessage`) -/

/-- A frame received over the channel: `tool`, `response`, `error`, the
`done` marker, or any other type (ignored by the handler's `switch`). -/
inductive Frame where
  | tool (name : String)
  | response (content : String)
  | done
  | error (message : String)
  | other (rtype : String)
  deriving Repr, DecidableEq

/-- `handleWSMessage(data)`: `tool` shows the tool indicator; `response`
displays content and clears `isProcessing`; `done` hides the tool indicator
and clears `isProcessing`; `error` displays the message, hides the tool
indicator and clears `isProcessing`; anything else falls through the
`switch` unchanged. -/
def handleWSMessage (st : AppState) (f : Frame) : AppState :=
  match f with
  | Frame.tool _ => { st with toolsVisible := true }
  | Frame.response c => { showResponseS st c with isProcessing := false }
  | Frame.done => { st with toolsVisible := false, isProcessing := false }
  | Frame.error m =>
    { showResponseS st ("Error: " ++ m) with
        toolsVisible := false, isProcessing := false }
  | Frame.other _ => st

/-- Process a sequence of frames in arrival order. -/
def runFrames (st : AppState) (fs : List Frame) : AppState :=
  fs.foldl handleWSMessage st

/-! ## Intent handling, submission, and the input pipeline -/

/-- `handleResultAction(result, item)`: the `switch` over the produced
intent.  Purely visual steps (spinner, window resize/hide timers, the
response text a later await displays) are reduced to the state fields and
effects this model tracks. -/
def handleResultAction (st : AppState) (intent : ActionIntent) :
    AppState × List Effect :=
  match intent with
  | ActionIntent.ai q =>
    ({ st with list := rlHide st.list, isProcessing := true, inputValue := "" },
      sendMessageWS st q)
  | ActionIntent.insert v =>
    ({ st with inputValue := v }, [Effect.scheduleInputResolve])
  | ActionIntent.navigate u => (st, [Effect.navigateTo u])
  | ActionIntent.urlIntent u =>
    ({ st with list := rlHide st.list, inputValue := "" },
      sendMessageWS st ("Please open this URL: " ++ u))
  | ActionIntent.copy v =>
    ({ showResponseS st ("✓ Copied: " ++ v) with inputValue := "" },
      [Effect.clipboardWrite v])
  | ActionIntent.context p =>
    ({ st with list := rlHide st.list, inputValue := "" },
      [Effect.fetchContextLoad p])
  | ActionIntent.clear =>
    let st2 := { st with list := rlHide st.list, responseText := none, toolsVisible := false, inputValue := "" }
    (st2, [])
  | ActionIntent.clearContext =>
    ({ st with list := rlHide st.list, inputValue := "" },
      [Effect.fetchContextClear])
  | ActionIntent.provider pid =>
    ({ st with list := rlHide st.list, inputValue := "" },
      [Effect.fetchProvidersUpdate pid])
  | ActionIntent.launchApp appId _ =>
    ({ st with list := rlHide st.list, inputValue := "" },
      [Effect.invokeLaunchApp appId])
  | ActionIntent.quit => (st, [Effect.exitApp])
  | ActionIntent.openFile p _ =>
    ({ st with list := rlHide st.list, inputValue := "" },
      [Effect.invokeOpenFile p])
  | ActionIntent.copyToClipboard c =>
    ({ st with list := rlHide st.list, inputValue := "" },
      [Effect.invokeCopyToClipboard c])
  | ActionIntent.openUrl u =>
    ({ st with list := rlHide st.list, inputValue := "" },
      [Effect.invokeOpenFile u])

/-- `executeSelected()`: no-op on an empty list; otherwise read
`results[selectedIndex]`, and only when the item exists, has an action and
the `onSelect` callback (always `handleResultAction`) is registered, run the
action and deliver the intent. -/
def executeSelected (st : AppState) : AppState × List Effect × Option ActionIntent :=
  if st.list.results.isEmpty then (st, [], none)
  else
    match getSelected st.list with
    | some item =>
      match item.action with
      | some intent =>
        let (st2, eff) := handleResultAction st intent
        (st2, eff, some intent)
      | none => (st, [], none)
    | none => (st, [], none)

/-- `handleSubmit()`: return immediately when the trimmed input is empty or
`isProcessing` is set; otherwise capture the selected result, hide the list,
execute a captured action if there is one, else set `isProcessing`, clear the
input and hand the raw text to `sendMessageWS`. -/
def handleSubmit (st : AppState) : AppState × List Effect :=
  let message := jsTrim st.inputValue
  if message = "" || st.isProcessing then (st, [])
  else
    let selectedResult := if rlIsVisible st.list then getSelected st.list else none
    let st2 := { st with list := rlHide st.list }
    match selectedResult with
    | some item =>
      match item.action with
      | some intent => handleResultAction st2 intent
      | none =>
        ({ st2 with isProcessing := true, inputValue := "" },
          sendMessageWS st2 message)
    | none =>
      ({ st2 with isProcessing := true, inputValue := "" },
        sendMessageWS st2 message)

/-- The keydown path for Enter without Shift: `resultList.handleKeyDown`
consumes the event (running `executeSelected`) exactly when the list is
visible and non-empty; otherwise the event falls through to `handleSubmit`. -/
def onEnterNoShift (st : AppState) : AppState × List Effect :=
  if rlIsVisible st.list then
    let r := executeSelected st
    (r.1, r.2.1)
  else handleSubmit st

/-- The trailing edge of the 100 ms debounce in `handleInputChange`: resolve
the current query; `show` the list when both the result list and the query
are non-empty, `hide` it when the query is empty, and otherwise leave the
selection state exactly as it is. -/
def inputDebounceFire (env : Env) (st : AppState) (query : String) :
    AppState × List Effect :=
  let r := getResults env query
  if 0 < r.1.length ∧ 0 < query.length then
    ({ st with list := rlShow st.list r.1 }, r.2)
  else if query.length = 0 then
    ({ st with list := rlHide st.list }, r.2)
  else (st, r.2)

/-! ## Connection policies (`tryConnect` and `ws.onclose`) -/

/-- Outcome of one `tryConnect(attempts)` call given whether the
`GET /health` probe succeeds. -/
inductive ConnectStep where
  | gaveUp
  | connected
  | retryAfter (delayMs : ℚ)
  deriving Repr, DecidableEq

/-- `tryConnect(attempts)`: give up permanently at 10 attempts; on probe
success open the streaming channel; on failure schedule `tryConnect(attempts
+ 1)` after `min(500 * 1.5^attempts, 5000)` milliseconds. -/
def tryConnect (attempts : ℕ) (healthOk : Bool) : ConnectStep :=
  if 10 ≤ attempts then ConnectStep.gaveUp
  else if healthOk then ConnectStep.connected
  else ConnectStep.retryAfter (min (500 * (3 / 2 : ℚ) ^ attempts) 5000)

/-- `ws.onclose`: schedule `initWebSocket` after a fixed 2000 ms.  The
handler keeps no counter, so the scheduled delay is the same for every drop
— the parameter records how many drops have already occurred. -/
def wsOnCloseReconnect (_dropCount : ℕ) : Option ℚ := some 2000

/-! ## Auxiliary definitions used by theorem statements -/

/-- A frame the ordering contract classifies as a tool report. -/
def isToolFrame : Frame → Bool
  | Frame.tool _ => true
  | _ => false

/-- A terminal frame: `response` or `error`. -/
def isTerminalFrame : Frame → Bool
  | Frame.response _ => true
  | Frame.error _ => true
  | _ => false

/-- The submission guard's notion of an executable selection: the list is
visible and non-empty and the selected item exists and carries an action. -/
def hasExecutableSelection (st : AppState) : Bool :=
  rlIsVisible st.list &&
    (match getSelected st.list with
     | some item => item.action.isSome
     | none => false)

/-- A concrete environment with the Tauri bridge available, used to
instantiate universally quantified theorems. -/
def testEnv : Env :=
  { tauriAvailable := true,
    searchApps := fun _ => Except.ok [],
    searchFiles := fun _ _ _ =>
      Except.ok [{ name := "notes.txt", path := "/home/u/notes.txt", isDir := false }],
    clipboardHistory := fun _ => Except.ok [],
    providersResp := none }

/-- A concrete environment in which the Tauri bridge is missing
(`window.__TAURI__?.core?.invoke` is undefined). -/
def noTauriEnv : Env :=
  { tauriAvailable := false,
    searchApps := fun _ => Except.ok [],
    searchFiles := fun _ _ _ => Except.ok [],
    clipboardHistory := fun _ => Except.ok [],
    providersResp := none }

/-- A concrete visible two-element selection state at index 0. -/
def twoItemList : RLState :=
  { results := [aiFallback "a", openUrlResult "a"], selectedIndex := 0,
    visible := true }

/-- A concrete idle application state whose input holds `/zzz` and whose
list is visible at selection index 1. -/
def sampleAppState : AppState :=
  { isProcessing := false, inputValue := "/zzz",
    list := { results := [aiFallback "a"], selectedIndex := 1, visible := true },
    wsOpen := true, responseText := none, toolsVisible := false }

/-- A concrete busy application state with a hidden, empty list. -/
def busyAppState : AppState :=
  { isProcessing := true, inputValue := "hello",
    list := { results := [], selectedIndex := 0, visible := false },
    wsOpen := true, responseText := none, toolsVisible := false }

/-- A concrete busy application state whose visible selection is a
label-only entry (no action). -/
def busyHintState : AppState :=
  { isProcessing := true, inputValue := "/file a",
    list := { results := [fileHint], selectedIndex := 0, visible := true },
    wsOpen := true, responseText := none, toolsVisible := false }

/-! ## Helper lemmas -/

/-- `universalSearch` decomposes into its detector contributions followed by
the AI fallback. -/
theorem universalSearch_decomp (q : String) :
    universalSearch q = calcPart q ++ (urlPart q ++ [aiFallback q]) := by
  unfold universalSearch calcPart urlPart
  cases hc : calcMatch q <;> cases hu : urlMatch q <;>
    cases he : evalArith q <;> simp [hc, hu, he]

/-- Every character of a matched prefix occurs in the string. -/
theorem startsWithL_mem :
    ∀ pat s : List Char, startsWithL pat s = true → ∀ c ∈ pat, c ∈ s := by
  intro pat
  induction pat with
  | nil => intro s _ c hc; exact absurd hc (List.not_mem_nil c)
  | cons p ps ih =>
    intro s h c hc
    cases s with
    | nil => simp [startsWithL] at h
    | cons a as =>
      simp only [startsWithL, Bool.and_eq_true, beq_iff_eq] at h
      rcases List.mem_cons.mp hc with hc | hc
      · exact List.mem_cons.mpr (Or.inl (hc.trans h.1))
      · exact List.mem_cons.mpr (Or.inr (ih as h.2 c hc))

/-- Every character of a matched substring occurs in the string. -/
theorem hasSubL_mem :
    ∀ s pat : List Char, hasSubL pat s = true → ∀ c ∈ pat, c ∈ s := by
  intro s
  induction s with
  | nil =>
    intro pat h c hc
    cases pat with
    | nil => exact absurd hc (List.not_mem_nil c)
    | cons p ps => simp [hasSubL, startsWithL] at h
  | cons a as ih =>
    intro pat h c hc
    simp only [hasSubL, Bool.or_eq_true] at h
    rcases h with h | h
    · exact startsWithL_mem pat (a :: as) h c hc
    · exact List.mem_cons.mpr (Or.inr (ih pat h c hc))

/-- A URL-detector match forces a character outside the calculator character
class to occur in the query. -/
theorem urlMatch_exists_nonCalcChar (q : String) (h : urlMatch q = true) :
    ∃ c ∈ q.data, isCalcChar c = false := by
  unfold urlMatch startsWithS containsSubS at h
  simp only [Bool.or_eq_true] at h
  rcases h with ((((((((h | h) | h) | h) | h) | h) | h) | h) | h)
  · exact ⟨'h', startsWithL_mem _ _ h 'h' (by decide), by decide⟩
  · exact ⟨'h', startsWithL_mem _ _ h 'h' (by decide), by decide⟩
  · exact ⟨'w', startsWithL_mem _ _ h 'w' (by decide), by decide⟩
  · exact ⟨'c', hasSubL_mem _ _ h 'c' (by decide), by decide⟩
  · exact ⟨'o', hasSubL_mem _ _ h 'o' (by decide), by decide⟩
  · exact ⟨'n', hasSubL_mem _ _ h 'n' (by decide), by decide⟩
  · exact ⟨'i', hasSubL_mem _ _ h 'i' (by decide), by decide⟩
  · exact ⟨'d', hasSubL_mem _ _ h 'd' (by decide), by decide⟩
  · exact ⟨'a', hasSubL_mem _ _ h 'a' (by decide), by decide⟩

/-- The two universal-search detectors are mutually exclusive: the URL
patterns require a letter and the calculator class admits none. -/
theorem calcMatch_urlMatch_exclusive (q : String) (hc : calcMatch q = true) :
    urlMatch q = false := by
  by_contra h
  have hu : urlMatch q = true := by
    cases hq : urlMatch q
    · exact absurd hq h
    · rfl
  obtain ⟨c, hmem, hfalse⟩ := urlMatch_exists_nonCalcChar q hu
  unfold calcMatch at hc
  simp only [Bool.and_eq_true, List.all_eq_true] at hc
  have := hc.2 c hmem
  rw [hfalse] at this
  exact Bool.false_ne_true this

/-- Every entry of `calcPart` carries the id `calc_result`. -/
theorem calcPart_id (q : String) : ∀ r ∈ calcPart q, r.id = "calc_result" := by
  intro r hr
  unfold calcPart at hr
  cases hc : calcMatch q <;> simp [hc] at hr
  cases he : evalArith q <;> simp [he] at hr
  rw [hr]; rfl

/-- Every entry of `urlPart` carries the id `open_url`. -/
theorem urlPart_id (q : String) : ∀ r ∈ urlPart q, r.id = "open_url" := by
  intro r hr
  unfold urlPart at hr
  cases hu : urlMatch q <;> simp [hu] at hr
  rw [hr]; rfl

/-- The AI fallback is the last entry of every universal-search list. -/
theorem universalSearch_getLast (q : String) :
    (universalSearch q).getLast? = some (aiFallback q) := by
  rw [universalSearch_decomp, ← List.append_assoc, List.getLast?_concat]

/-- An all-whitespace string trims to the empty string. -/
theorem jsTrim_of_all_space (q : String) (h : ∀ c ∈ q.data, isJsSpace c = true) :
    jsTrim q = "" := by
  unfold jsTrim
  have h1 : q.data.dropWhile isJsSpace = [] := by
    rw [List.dropWhile_eq_nil_iff]
    intro c hc; exact h c hc
  rw [h1]
  rfl

/-! ## C3 — cursor bounds -/

/-- C3 counterexample: the claim says `setSelected(index)` follows the same
bounds rule as `moveSelection` (out-of-range index ⇒ no-op).  On a visible
two-element list at index 0, `setSelected 5` stores the out-of-range index 5
instead of leaving the state unchanged. -/
theorem c3_counterexample :
    (setSelected twoItemList 5).selectedIndex = 5 ∧
    ¬((5 : Int) < (twoItemList.results.length : Int)) ∧
    twoItemList.visible = true := by
  refine ⟨rfl, by decide, rfl⟩

/-- C3 (amended): `moveSelection(Δ)` applies `current + Δ` only when it lies
in `[0, n)` and is a no-op otherwise (in particular `moveSelection(-1)` at
index 0 leaves the state unchanged), while `setSelected(index)` stores the
given index unconditionally, with no bounds check. -/
theorem c3_theorem : ∀ (st : RLState) (delta : Int),
    (0 ≤ st.selectedIndex + delta ∧
        st.selectedIndex + delta < (st.results.length : Int) →
      moveSelection st delta = { st with selectedIndex := st.selectedIndex + delta }) ∧
    (¬(0 ≤ st.selectedIndex + delta ∧
        st.selectedIndex + delta < (st.results.length : Int)) →
      moveSelection st delta = st) ∧
    (st.selectedIndex = 0 → moveSelection st (-1) = st) ∧
    (∀ i : Int, (setSelected st i).selectedIndex = i) := by
  intro st delta
  refine ⟨?_, ?_, ?_, ?_⟩
  · intro h
    unfold moveSelection setSelected
    rw [if_pos h]
  · intro h
    unfold moveSelection
    rw [if_neg h]
  · intro h0
    unfold moveSelection
    rw [if_neg]
    rw [h0]
    intro hcon
    omega
  · intro i
    rfl

/-- C3 witness: a two-element visible list at index 0 — `moveSelection (-1)`
is a no-op there and `setSelected 1` stores 1. -/
theorem c3_witness :
    moveSelection twoItemList (-1) = twoItemList ∧
    (setSelected twoItemList 1).selectedIndex = 1 := by
  exact ⟨(c3_theorem twoItemList (-1)).2.2.1 rfl, (c3_theorem twoItemList 1).2.2.2 1⟩

/-! ## C5 — the two retry policies -/

/-- C5: initial acquisition probes retry with delay
`min(500 · 1.5^attempts, 5000)` while `attempts < 10`, succeed into a
connection while `attempts < 10`, and give up permanently from the 10th
failure on; a post-connect drop always schedules one reconnect after a fixed
2000 ms, at every drop count (no cap). -/
theorem c5_theorem : ∀ (k : ℕ) (b : Bool),
    (k < 10 → tryConnect k false =
      ConnectStep.retryAfter (min (500 * (3 / 2 : ℚ) ^ k) 5000)) ∧
    (k < 10 → tryConnect k true = ConnectStep.connected) ∧
    (10 ≤ k → tryConnect k b = ConnectStep.gaveUp) ∧
    min (500 * (3 / 2 : ℚ) ^ k) 5000 ≤ 5000 ∧
    wsOnCloseReconnect k = some 2000 := by
  intro k b
  refine ⟨?_, ?_, ?_, min_le_right _ _, rfl⟩
  · intro h
    unfold tryConnect
    rw [if_neg (by omega)]
    rfl
  · intro h
    unfold tryConnect
    rw [if_neg (by omega)]
    rfl
  · intro h
    unfold tryConnect
    rw [if_pos h]

/-- C5 witness: attempt 0 retries after 500 ms, attempt 9 after the 5000 ms
cap, attempt 10 gives up, and the third drop reconnects after 2000 ms. -/
theorem c5_witness :
    tryConnect 0 false = ConnectStep.retryAfter 500 ∧
    tryConnect 9 false = ConnectStep.retryAfter 5000 ∧
    tryConnect 10 false = ConnectStep.gaveUp ∧
    wsOnCloseReconnect 3 = some 2000 := by
  have h0 := (c5_theorem 0 false).1 (by decide)
  have h9 := (c5_theorem 9 false).1 (by decide)
  have h10 := (c5_theorem 10 false).2.2.1 (by decide)
  refine ⟨?_, ?_, h10, (c5_theorem 3 false).2.2.2.2⟩
  · rw [h0]; norm_num
  · rw [h9]
    congr 1
    rw [min_eq_right]
    norm_num

/-! ## C10 — empty resolution leaves the frame untouched -/

/-- C10: when the debounce fires on a non-empty query whose resolution is
empty, the pipeline calls neither `show` nor `hide`: the whole state —
displayed list, visibility and selection index included — is exactly as
before. -/
theorem c10_theorem : ∀ (env : Env) (st : AppState) (q : String),
    q ≠ "" → (getResults env q).1 = [] →
    (inputDebounceFire env st q).1 = st := by
  intro env st q hq hres
  have hqlen : ¬(q.length = 0) := by
    intro h0
    apply hq
    cases q with
    | mk l =>
      have hl : l = [] := List.length_eq_zero.mp h0
      rw [hl]
  simp only [inputDebounceFire, hres, List.length_nil, lt_self_iff_false,
    false_and, if_false, hqlen, ite_false]

/-- C10 witness: the query `/zzz` matches no command, resolves to the empty
list, and the state (a visible list with selection index 1) is untouched. -/
theorem c10_witness :
    (getResults testEnv "/zzz").1 = [] ∧
    (inputDebounceFire testEnv sampleAppState "/zzz").1 = sampleAppState := by
  constructor
  · decide
  · exact c10_theorem testEnv sampleAppState "/zzz" (by decide) (by decide)

/-! ## C1 — single-flight guard -/

/-- C1: while `isProcessing` (busy) is set, Enter without a modifier and
without an executable selection is a complete no-op — no channel write, no
fallback call, no effect of any kind, nothing queued, and the state
(including the busy flag) is exactly unchanged. -/
theorem c1_theorem : ∀ st : AppState,
    st.isProcessing = true →
    hasExecutableSelection st = false →
    onEnterNoShift st = (st, []) := by
  intro st hbusy hsel
  unfold onEnterNoShift
  by_cases hv : rlIsVisible st.list = true
  · rw [if_pos hv]
    unfold hasExecutableSelection at hsel
    rw [hv, Bool.true_and] at hsel
    have hne : st.list.results.isEmpty = false := by
      unfold rlIsVisible at hv
      cases h1 : st.list.results.isEmpty
      · rfl
      · rw [h1] at hv
        simp at hv
    unfold executeSelected
    cases hg : getSelected st.list with
    | none => simp [hne, hg]
    | some item =>
      rw [hg] at hsel
      cases ha : item.action with
      | none => simp [hne, hg, ha]
      | some intent =>
        simp [ha] at hsel
  · rw [if_neg hv]
    unfold handleSubmit
    rw [hbusy]
    simp

/-- C1 witness: a busy state with a hidden list, and a busy state whose
visible selection is a label-only hint, are both left exactly unchanged with
no effects. -/
theorem c1_witness :
    busyAppState.isProcessing = true ∧
    hasExecutableSelection busyAppState = false ∧
    onEnterNoShift busyAppState = (busyAppState, []) ∧
    busyHintState.isProcessing = true ∧
    hasExecutableSelection busyHintState = false ∧
    onEnterNoShift busyHintState = (busyHintState, []) := by
  refine ⟨rfl, by decide, c1_theorem busyAppState rfl (by decide),
    rfl, by decide, c1_theorem busyHintState rfl (by decide)⟩

/-! ## C2 — frame termination -/

/-- Tool frames never touch the busy flag. -/
theorem runFrames_tool_preserves (fs : List Frame) :
    ∀ u : AppState, (∀ f ∈ fs, isToolFrame f = true) →
    (runFrames u fs).isProcessing = u.isProcessing := by
  induction fs with
  | nil => intro u _; rfl
  | cons f fs ih =>
    intro u hall
    have hf := hall f (List.mem_cons_self f fs)
    have hrest : ∀ g ∈ fs, isToolFrame g = true :=
      fun g hg => hall g (List.mem_cons_of_mem f hg)
    cases f with
    | tool name =>
      have hstep : runFrames u (Frame.tool name :: fs) =
          runFrames { u with toolsVisible := true } fs := rfl
      rw [hstep, ih _ hrest]
    | response c => simp [isToolFrame] at hf
    | done => simp [isToolFrame] at hf
    | error m => simp [isToolFrame] at hf
    | other t => simp [isToolFrame] at hf

/-- C2: over every frame trace obeying the spec's ordering contract (tools,
then one terminal `response`/`error`, then at most one `done`), a busy
session stays busy through all the tool frames, the terminal frame clears
the busy flag (so it is cleared exactly once, by that frame), the optional
trailing `done` leaves it cleared, and `done` is idempotent with respect to
an already-clear busy flag.  The backend that produces the frames is not in
the repository snapshot, so the ordering contract itself — in particular
that `done` is never the sole terminator of a query — is modelled from the
spec as the hypotheses on the trace. -/
theorem c2_theorem : ∀ (st : AppState) (ts d : List Frame) (t : Frame),
    (∀ f ∈ ts, isToolFrame f = true) →
    isTerminalFrame t = true →
    (d = [] ∨ d = [Frame.done]) →
    st.isProcessing = true →
    (runFrames st ts).isProcessing = true ∧
    (runFrames st (ts ++ [t])).isProcessing = false ∧
    (runFrames st (ts ++ [t] ++ d)).isProcessing = false ∧
    (∀ u : AppState, u.isProcessing = false →
      (handleWSMessage u Frame.done).isProcessing = u.isProcessing) := by
  intro st ts d t htools hterm hd hbusy
  have hclear : ∀ u : AppState, (handleWSMessage u t).isProcessing = false := by
    intro u
    cases t with
    | response c => rfl
    | error m => rfl
    | tool n => simp [isTerminalFrame] at hterm
    | done => simp [isTerminalFrame] at hterm
    | other x => simp [isTerminalFrame] at hterm
  have h1 : (runFrames st ts).isProcessing = true := by
    rw [runFrames_tool_preserves ts st htools, hbusy]
  have h2 : (runFrames st (ts ++ [t])).isProcessing = false := by
    unfold runFrames
    rw [List.foldl_append]
    exact hclear _
  refine ⟨h1, h2, ?_, ?_⟩
  · rcases hd with hd | hd
    · rw [hd, List.append_nil]
      exact h2
    · rw [hd]
      unfold runFrames
      rw [List.foldl_append]
      rfl
  · intro u hu
    rw [hu]
    rfl

/-- C2 witness: a busy session fed `tool`, then `response`, then `done` is
still busy after the tool frame, cleared by the response, and still clear
after `done`. -/
theorem c2_witness :
    (runFrames busyAppState [Frame.tool "run_shell"]).isProcessing = true ∧
    (runFrames busyAppState
      [Frame.tool "run_shell", Frame.response "ok"]).isProcessing = false ∧
    (runFrames busyAppState
      [Frame.tool "run_shell", Frame.response "ok", Frame.done]).isProcessing =
      false := by
  have h := c2_theorem busyAppState [Frame.tool "run_shell"] [Frame.done]
    (Frame.response "ok") (by decide) (by decide) (Or.inr rfl) rfl
  exact ⟨h.1, by simpa using h.2.1, by simpa using h.2.2.1⟩

/-! ## C4 — AI fallback shape of universal search -/

/-- C4: for every non-empty trimmed query with neither `/` nor `>` prefix,
`getResults` resolves through universal search with no network call; the list
contains exactly one entry with id `ai_fallback`, its title is the query, it
is the last entry, and whenever the URL detector matches, the
`Open <query>` entry sits strictly before it. -/
theorem c4_theorem : ∀ (env : Env) (q : String),
    jsTrim q ≠ "" →
    startsWithS (jsTrim q) "/" = false →
    startsWithS (jsTrim q) ">" = false →
    (getResults env q).1 = universalSearch (jsTrim q) ∧
    (getResults env q).2 = [] ∧
    (universalSearch (jsTrim q)).filter (fun r => r.id == "ai_fallback") =
      [aiFallback (jsTrim q)] ∧
    (aiFallback (jsTrim q)).title = jsTrim q ∧
    (universalSearch (jsTrim q)).getLast? = some (aiFallback (jsTrim q)) ∧
    (urlMatch (jsTrim q) = true →
      universalSearch (jsTrim q) =
        calcPart (jsTrim q) ++ [openUrlResult (jsTrim q), aiFallback (jsTrim q)]) := by
  intro env q h1 h2 h3
  have hget : getResults env q = (universalSearch (jsTrim q), []) := by
    simp [getResults, h1, h2, h3]
  refine ⟨by rw [hget], by rw [hget], ?_, rfl, universalSearch_getLast _, ?_⟩
  · rw [universalSearch_decomp, List.filter_append, List.filter_append]
    have hc : (calcPart (jsTrim q)).filter (fun r => r.id == "ai_fallback") = [] := by
      rw [List.filter_eq_nil_iff]
      intro r hr
      rw [calcPart_id _ r hr]
      decide
    have hu : (urlPart (jsTrim q)).filter (fun r => r.id == "ai_fallback") = [] := by
      rw [List.filter_eq_nil_iff]
      intro r hr
      rw [urlPart_id _ r hr]
      decide
    rw [hc, hu]
    simp [aiFallback]
  · intro hu
    rw [universalSearch_decomp]
    unfold urlPart
    simp [hu]

/-- C4 witness: `example.com` — the URL entry strictly precedes the AI
fallback, which is last and titled with the query. -/
theorem c4_witness :
    jsTrim "example.com" ≠ "" ∧
    (getResults testEnv "example.com").1 =
      [openUrlResult "example.com", aiFallback "example.com"] ∧
    (getResults testEnv "example.com").1.getLast? =
      some (aiFallback "example.com") := by
  have h := c4_theorem testEnv "example.com" (by decide) (by decide) (by decide)
  have ht : jsTrim "example.com" = "example.com" := by decide
  rw [ht] at h
  have hcp : calcPart "example.com" = [] := by decide
  refine ⟨by decide, ?_, ?_⟩
  · rw [h.1, h.2.2.2.2.2 (by decide), hcp, List.nil_append]
  · rw [h.1]
    exact h.2.2.2.2.1

/-! ## C6 — arithmetic detector -/

/-- C6: on a query inside the calculator character class whose evaluation
yields a (finite) value `r`, universal search has the entry titled
`"= <r>"` with a copy intent at index 0; when evaluation fails, nothing is
added — the list is exactly the URL part plus the AI fallback and contains
no `calc_result` entry (and no error entry). -/
theorem c6_theorem : ∀ q : String,
    (∀ r : Frac, calcMatch q = true → evalArith q = some r →
      (universalSearch q).head? = some (calcResult (fmtVal r)) ∧
      (calcResult (fmtVal r)).title = "= " ++ fmtVal r ∧
      (calcResult (fmtVal r)).action = some (ActionIntent.copy (fmtVal r))) ∧
    (evalArith q = none →
      universalSearch q = urlPart q ++ [aiFallback q] ∧
      ∀ r ∈ universalSearch q, r.id ≠ "calc_result") := by
  intro q
  constructor
  · intro r hc he
    refine ⟨?_, rfl, rfl⟩
    rw [universalSearch_decomp]
    unfold calcPart
    simp [hc, he]
  · intro he
    have hcp : calcPart q = [] := by
      unfold calcPart
      cases hc : calcMatch q
      · simp
      · simp [he]
    have hlist : universalSearch q = urlPart q ++ [aiFallback q] := by
      rw [universalSearch_decomp, hcp, List.nil_append]
    refine ⟨hlist, ?_⟩
    intro r hr
    rw [hlist] at hr
    rcases List.mem_append.mp hr with h | h
    · rw [urlPart_id q r h]
      decide
    · rw [List.mem_singleton.mp h]
      show ("ai_fallback" : String) ≠ "calc_result"
      decide

/-- C6 witness: `2+2` evaluates to 4 and yields `"= 4"` at index 0 with a
copy intent; `2+` fails to evaluate and adds nothing. -/
theorem c6_witness :
    evalArith "2+2" = some (fracOfInt 4) ∧
    (universalSearch "2+2").head? = some (calcResult "4") ∧
    (calcResult "4").title = "= 4" ∧
    (calcResult "4").action = some (ActionIntent.copy "4") ∧
    evalArith "2+" = none ∧
    universalSearch "2+" = [aiFallback "2+"] := by
  have t1 := c6_theorem "2+2"
  have t2 := c6_theorem "2+"
  have h1 := t1.1 (fracOfInt 4) (by decide) (by decide)
  have h2 := t2.2 (by decide)
  have hf : fmtVal (fracOfInt 4) = "4" := by decide
  rw [hf] at h1
  have hu : urlPart "2+" = [] := by decide
  refine ⟨by decide, h1.1, by decide, by decide, by decide, ?_⟩
  rw [h2.1, hu, List.nil_append]

/-! ## C7 — quick actions for empty query -/

/-- C7: an empty or all-whitespace query resolves to exactly the five
quick-action entries in their fixed order with their fixed ids, with an
empty effect list (no network or collaborator call). -/
theorem c7_theorem : ∀ (env : Env) (q : String),
    (∀ c ∈ q.data, isJsSpace c = true) →
    getResults env q = (getQuickActions, []) ∧
    getQuickActions.length = 5 ∧
    getQuickActions.map (fun r => r.id) =
      ["qa_ai", "qa_apps", "qa_files", "qa_clipboard", "qa_settings"] := by
  intro env q h
  refine ⟨?_, rfl, rfl⟩
  simp [getResults, jsTrim_of_all_space q h]

/-- C7 witness: the empty query and a two-space query both yield the five
quick actions and no effects. -/
theorem c7_witness :
    getResults testEnv "" = (getQuickActions, []) ∧
    getResults testEnv "  " = (getQuickActions, []) ∧
    getQuickActions.length = 5 := by
  have h0 := c7_theorem testEnv "" (by decide)
  have h2 := c7_theorem testEnv "  " (by decide)
  exact ⟨h0.1, h2.1, h0.2.1⟩

/-! ## C8 — detector tie-break -/

/-- C8 counterexample: at the spec's own combined example
`"2+2 example.com"` the arithmetic detector does not match at all (the URL
part of the string contains letters, which the arithmetic character class
forbids), so the promised `[arithmetic, URL, AI]` ordering does not occur:
the resolved list has the URL entry at index 0 and no arithmetic entry. -/
theorem c8_counterexample :
    calcMatch "2+2 example.com" = false ∧
    urlMatch "2+2 example.com" = true ∧
    universalSearch "2+2 example.com" =
      [openUrlResult "2+2 example.com", aiFallback "2+2 example.com"] := by
  refine ⟨by decide, by decide, by decide⟩

/-- C8 (amended): no query is matched by both detectors — every URL pattern
requires a letter and the arithmetic class admits none — so the combined
case is vacuous.  The construction order still guarantees each pairwise
ordering: when the arithmetic detector fires the list is
`[= result, AI fallback]` (arithmetic at index 0), when the URL detector
fires it is `[Open query, AI fallback]` (URL entry immediately before the
fallback), and the AI fallback is always the last entry. -/
theorem c8_theorem : ∀ q : String,
    (calcMatch q = true → urlMatch q = false) ∧
    (∀ r : Frac, calcMatch q = true → evalArith q = some r →
      universalSearch q = [calcResult (fmtVal r), aiFallback q]) ∧
    (urlMatch q = true → universalSearch q = [openUrlResult q, aiFallback q]) ∧
    (universalSearch q).getLast? = some (aiFallback q) := by
  intro q
  refine ⟨calcMatch_urlMatch_exclusive q, ?_, ?_, universalSearch_getLast q⟩
  · intro r hc he
    have hu := calcMatch_urlMatch_exclusive q hc
    rw [universalSearch_decomp]
    unfold calcPart urlPart
    simp [hc, he, hu]
  · intro hu
    have hc : calcMatch q = false := by
      cases hcm : calcMatch q
      · rfl
      · rw [calcMatch_urlMatch_exclusive q hcm] at hu
        exact hu.symm
    have hcp : calcPart q = [] := by
      unfold calcPart
      simp [hc]
    rw [universalSearch_decomp, hcp, List.nil_append]
    unfold urlPart
    simp [hu]

/-- C8 witness: the pairwise orderings at `2+2` (arithmetic at 0, AI last)
and `example.com` (URL at 0, AI last). -/
theorem c8_witness :
    universalSearch "2+2" = [calcResult "4", aiFallback "2+2"] ∧
    universalSearch "example.com" =
      [openUrlResult "example.com", aiFallback "example.com"] := by
  have t1 := c8_theorem "2+2"
  have t2 := c8_theorem "example.com"
  have h1 := t1.2.1 (fracOfInt 4) (by decide) (by decide)
  have h2 := t2.2.2.1 (by decide)
  have hf : fmtVal (fracOfInt 4) = "4" := by decide
  rw [hf] at h1
  exact ⟨h1, h2⟩

/-! ## C9 — file-search argument validation -/

/-- C9 counterexample: an argument of ≥ 2 characters does not always reach
`search_files` — with the Tauri bridge unavailable, `/file ab` returns the
single `File search unavailable` entry and performs no collaborator call. -/
theorem c9_counterexample :
    2 ≤ "ab".length ∧
    fileRun noTauriEnv "ab" = ([fileNoTauri], []) := by
  refine ⟨by decide, by decide⟩

/-- C9 (amended): an absent or shorter-than-2-characters argument yields the
single hint entry with no collaborator call; an argument of 2 or more
characters invokes `search_files(args, 15)` exactly once provided the Tauri
bridge is available, and never invokes it when the bridge is unavailable. -/
theorem c9_theorem : ∀ (env : Env) (args : String),
    (args.length < 2 → fileRun env args = ([fileHint], [])) ∧
    (2 ≤ args.length → env.tauriAvailable = true →
      (fileRun env args).2 = [Effect.invokeSearchFiles args 15 false]) ∧
    (env.tauriAvailable = false → (fileRun env args).2 = []) := by
  intro env args
  refine ⟨?_, ?_, ?_⟩
  · intro h
    simp [fileRun, h]
  · intro h2 htauri
    have h0 : ¬(args = "") := by
      intro he
      rw [he] at h2
      simp at h2
    simp only [fileRun, h0, htauri, Nat.not_lt.mpr h2, decide_False,
      Bool.or_false, Bool.false_or, if_false, Bool.not_true, ite_false]
    cases hs : env.searchFiles args 15 false with
    | error e => simp
    | ok files =>
      cases hf : files.isEmpty <;> simp [hf]
  · intro h
    unfold fileRun
    split
    · rfl
    · rw [h]
      simp

/-- C9 witness: with the bridge available, `/file a` (1-character argument)
yields the hint and no call, while `/file ab` performs exactly the
`search_files("ab", 15)` call. -/
theorem c9_witness :
    "a".length < 2 ∧
    fileRun testEnv "a" = ([fileHint], []) ∧
    2 ≤ "ab".length ∧
    (fileRun testEnv "ab").2 = [Effect.invokeSearchFiles "ab" 15 false] ∧
    (getResults testEnv "/file a").1 = [fileHint] ∧
    (getResults testEnv "/file a").2 = [] ∧
    (getResults testEnv "/file ab").2 = [Effect.invokeSearchFiles "ab" 15 false] := by
  refine ⟨by decide, (c9_theorem testEnv "a").1 (by decide),
    by decide, (c9_theorem testEnv "ab").2.1 (by decide) rfl,
    by decide, by decide, by decide⟩

end Ruty
